/-
Formal model of the ToDesktop Recall desktop-SDK plugin main process
(packages/plugin/src/main.ts, i.e. the RecallDesktopMain class) together
with the RecallSdkStore singleton (packages/plugin/src/store.ts).

The model is a shallow embedding.  Each IPC handler of RecallDesktopMain
becomes a pure function from a MainState (the mutable fields of the
RecallDesktopMain instance plus the RecallSdkStore singleton) to a new
state, an ApiResponse, and the list of calls issued to the external
RecallAiSdk provider.  Provider entry points that can throw (init,
shutdown) and renderer sends (webContents.send) are given their outcomes
by Boolean oracles, so one evaluation of a model function corresponds to
one run of the corresponding handler with those outcomes.  JavaScript
Maps are modelled as association lists preserving insertion order, which
matches Map iteration semantics.
-/
import Mathlib

abbrev WcId := Nat

/-- Permission identifiers (shared.ts `PermissionType`). -/
inductive PermissionType where
  | accessibility
  | screenCapture
  | microphone
  | systemAudio
  deriving DecidableEq, Repr

/-- Provider event kinds (shared.ts `RecallSdkEventType`). -/
inductive EventType where
  | recordingStarted
  | recordingEnded
  | uploadProgress
  | meetingDetected
  | meetingUpdated
  | meetingClosed
  | sdkStateChange
  | error
  | mediaCaptureStatus
  | participantCaptureStatus
  | permissionsGranted
  | permissionStatus
  | realtimeEvent
  | shutdown
  deriving DecidableEq, Repr

/-- The kebab-case wire name of an event kind, as it appears in IPC messages. -/
def EventType.toKebab : EventType → String
  | .recordingStarted => "recording-started"
  | .recordingEnded => "recording-ended"
  | .uploadProgress => "upload-progress"
  | .meetingDetected => "meeting-detected"
  | .meetingUpdated => "meeting-updated"
  | .meetingClosed => "meeting-closed"
  | .sdkStateChange => "sdk-state-change"
  | .error => "error"
  | .mediaCaptureStatus => "media-capture-status"
  | .participantCaptureStatus => "participant-capture-status"
  | .permissionsGranted => "permissions-granted"
  | .permissionStatus => "permission-status"
  | .realtimeEvent => "realtime-event"
  | .shutdown => "shutdown"

/-- Plugin configuration (shared.ts `RecallSdkConfig`). -/
structure RecallSdkConfig where
  enabled : Bool
  apiUrl : String
  requestPermissionsOnStartup : Bool
  deriving DecidableEq, Repr

/-- A `Partial<RecallSdkConfig>` argument: each field is present or absent. -/
structure ConfigUpdate where
  enabled : Option Bool
  apiUrl : Option String
  requestPermissionsOnStartup : Option Bool
  deriving DecidableEq, Repr

/-- The RecallSdkStore singleton state (store.ts): current configuration
and the `sdkInitialized` flag.  (The store's own `initialized` flag is
read by no handler modelled here.) -/
structure StoreState where
  config : RecallSdkConfig
  sdkInitialized : Bool
  deriving DecidableEq, Repr

/-- store.ts `RecallSdkStore.setConfig`: spread-merge of a partial update
onto the current configuration (`{ ...this.config, ...updates }`). -/
def StoreState.setConfig (st : StoreState) (u : ConfigUpdate) : StoreState :=
  { st with
    config :=
      { enabled := u.enabled.getD st.config.enabled
        apiUrl := u.apiUrl.getD st.config.apiUrl
        requestPermissionsOnStartup :=
          u.requestPermissionsOnStartup.getD st.config.requestPermissionsOnStartup } }

/-- store.ts `RecallSdkStore.clearState`: resets `sdkInitialized` to false. -/
def StoreState.clearState (st : StoreState) : StoreState :=
  { st with sdkInitialized := false }

/-- Parameters handed to `RecallAiSdk.init` (shared.ts `SdkInitOptions`). -/
structure SdkInitOptions where
  apiUrl : String
  acquirePermissionsOnStartup : Option (List PermissionType)
  restartOnError : Bool
  deriving DecidableEq, Repr

/-- The options built by `RecallDesktopMain.initializeSdk` from the current
configuration (main.ts lines 81-87). -/
def buildSdkOptions (c : RecallSdkConfig) : SdkInitOptions :=
  { apiUrl := c.apiUrl
    acquirePermissionsOnStartup :=
      if c.requestPermissionsOnStartup then
        some [.accessibility, .screenCapture, .microphone, .systemAudio]
      else none
    restartOnError := true }

/-- The `{success, message}` result every IPC handler resolves with. -/
structure ApiResponse where
  success : Bool
  message : String
  deriving DecidableEq, Repr

/-- One call made to the external RecallAiSdk provider. -/
inductive ProviderCall where
  | initCall (opts : SdkInitOptions)
  | shutdownCall
  | addEventListener (k : EventType)
  deriving DecidableEq, Repr

/- ### Association lists modelling JavaScript Maps

`alSet` replaces the value of an existing key in place (preserving its
position, as JavaScript `Map.set` does) and otherwise appends at the end
(insertion order).  `alDelete` removes the key's entry. -/

def alGet {α β : Type} [DecidableEq α] : List (α × β) → α → Option β
  | [], _ => none
  | p :: rest, key => if p.1 = key then some p.2 else alGet rest key

def alSet {α β : Type} [DecidableEq α] : List (α × β) → α → β → List (α × β)
  | [], key, val => [(key, val)]
  | p :: rest, key, val =>
      if p.1 = key then (key, val) :: rest else p :: alSet rest key val

def alDelete {α β : Type} [DecidableEq α] : List (α × β) → α → List (α × β)
  | [], _ => []
  | p :: rest, key =>
      if p.1 = key then alDelete rest key else p :: alDelete rest key

/-- The mutable fields of the RecallDesktopMain instance together with the
RecallSdkStore singleton.  `subscriptions` models the
`Map<RecallSdkEventType, Map<number, number>>` refcount table, `tracked`
the key set of `trackedWebContents`, and `sdkEventHandlers` the key set of
the `sdkEventHandlers` map (each value is the closure delegating to
`handleSdkEvent`, so only the key set carries information). -/
structure MainState where
  subscriptions : List (EventType × List (WcId × Nat))
  tracked : List WcId
  sdkEventHandlers : List EventType
  store : StoreState
  deriving DecidableEq, Repr

/-- The event side-effect table of RecallDesktopMain (main.ts lines 39-45):
only the `shutdown` event has a side effect, `recallSdkStore.clearState()`. -/
def eventSideEffects : EventType → Option (StoreState → StoreState)
  | .shutdown => some StoreState.clearState
  | _ => none

/-- main.ts `addDestroyedCleanup` (lines 158-169): starts tracking a
webContents and registers its destroyed callback, once per id. -/
def addDestroyedCleanup (s : MainState) (wcId : WcId) : MainState :=
  if wcId ∈ s.tracked then s
  else { s with tracked := s.tracked ++ [wcId] }

/-- The destroyed callback registered by `addDestroyedCleanup`: removes the
webContents id from every kind's subscription map and stops tracking it.
The callback exists only for tracked ids, so destroying an untracked id
changes nothing. -/
def destroyCleanup (s : MainState) (wcId : WcId) : MainState :=
  if wcId ∈ s.tracked then
    { s with
      subscriptions := s.subscriptions.map (fun q => (q.1, alDelete q.2 wcId))
      tracked := s.tracked.erase wcId }
  else s

/-- main.ts `RecallDesktopMain.ensureSdkListener` (lines 121-132): a no-op
if a provider listener for the kind exists, otherwise records the handler
and calls `RecallAiSdk.addEventListener` exactly once. -/
def ensureSdkListener (s : MainState) (eventType : EventType) :
    MainState × List ProviderCall :=
  if eventType ∈ s.sdkEventHandlers then (s, [])
  else
    ({ s with sdkEventHandlers := s.sdkEventHandlers ++ [eventType] },
      [ProviderCall.addEventListener eventType])

/-- main.ts SUBSCRIBE_EVENTS handler (lines 171-193): tracks the sender,
increments its refcount for the kind (creating the kind's map on first
use), ensures the provider listener, and resolves `{success: true}`. -/
def subscribeEvents (s : MainState) (wcId : WcId) (eventType : EventType) :
    MainState × ApiResponse × List ProviderCall :=
  let s1 := addDestroyedCleanup s wcId
  let m := (alGet s1.subscriptions eventType).getD []
  let prev := (alGet m wcId).getD 0
  let s2 := { s1 with subscriptions := alSet s1.subscriptions eventType (alSet m wcId (prev + 1)) }
  let r := ensureSdkListener s2 eventType
  (r.1, { success := true, message := "Subscribed to " ++ eventType.toKebab }, r.2)

/-- main.ts UNSUBSCRIBE_EVENTS handler (lines 195-217): if the kind has a
map, decrements the sender's refcount, deleting the entry at count ≤ 1;
always resolves `{success: true}`. -/
def unsubscribeEvents (s : MainState) (wcId : WcId) (eventType : EventType) :
    MainState × ApiResponse :=
  let r :=
    match alGet s.subscriptions eventType with
    | none => s
    | some m =>
        let prev := (alGet m wcId).getD 0
        let m2 := if prev ≤ 1 then alDelete m wcId else alSet m wcId (prev - 1)
        { s with subscriptions := alSet s.subscriptions eventType m2 }
  (r, { success := true, message := "Unsubscribed from " ++ eventType.toKebab })

/-- main.ts `RecallDesktopMain.broadcastEvent` (lines 102-119): iterates
the kind's subscription map in insertion order and sends the payload to
each still-tracked webContents; each send's success is given by the
`sendOk` oracle and a failed send is caught, affecting no other send.
Returns the list of (webContents id, send succeeded) pairs in send order. -/
def broadcastEvent (s : MainState) (eventType : EventType) (sendOk : WcId → Bool) :
    List (WcId × Bool) :=
  match alGet s.subscriptions eventType with
  | none => []
  | some subs =>
      subs.filterMap (fun p => if p.1 ∈ s.tracked then some (p.1, sendOk p.1) else none)

/-- main.ts `RecallDesktopMain.handleSdkEvent` (lines 134-155): applies the
registered side effect for the kind, catching a side-effect exception
(modelled by the `sideEffectThrows` oracle: when it throws, the store
mutation is not applied), then broadcasts the payload to subscribers. -/
def handleSdkEvent (s : MainState) (eventType : EventType)
    (sideEffectThrows : Bool) (sendOk : WcId → Bool) :
    MainState × List (WcId × Bool) :=
  let s1 :=
    match eventSideEffects eventType with
    | some eff => if sideEffectThrows then s else { s with store := eff s.store }
    | none => s
  (s1, broadcastEvent s1 eventType sendOk)

/-- main.ts `RecallDesktopMain.initializeSdk` (lines 77-100): builds the
init options from the current configuration and calls `RecallAiSdk.init`
(outcome given by the `initOk` oracle).  On success it marks the store
initialized; on failure it throws `RecallSdkError("SDK initialization
failed")`, modelled as `none`. -/
def initSdkCore (st : StoreState) (initOk : Bool) :
    Option StoreState × List ProviderCall :=
  let opts := buildSdkOptions st.config
  if initOk then (some { st with sdkInitialized := true }, [ProviderCall.initCall opts])
  else (none, [ProviderCall.initCall opts])

/-- main.ts INIT_SDK handler (lines 218-241): rejects when disabled,
short-circuits when already initialized, otherwise runs `initializeSdk`
and converts a thrown `RecallSdkError` into `{success: false}`. -/
def initSdkHandler (s : MainState) (initOk : Bool) :
    MainState × ApiResponse × List ProviderCall :=
  if !s.store.config.enabled then
    (s, { success := false, message := "Plugin is disabled" }, [])
  else if s.store.sdkInitialized then
    (s, { success := true, message := "SDK already initialized" }, [])
  else
    match initSdkCore s.store initOk with
    | (some st2, calls) =>
        ({ s with store := st2 },
          { success := true, message := "SDK initialized successfully" }, calls)
    | (none, calls) =>
        (s, { success := false, message := "SDK initialization failed" }, calls)

/-- main.ts SHUTDOWN_SDK handler (lines 243-256): calls
`RecallAiSdk.shutdown` (outcome given by the `shutdownOk` oracle) and only
then `recallSdkStore.clearState()`; a throwing provider shutdown jumps to
the catch block, skipping `clearState`. -/
def shutdownSdkHandler (s : MainState) (shutdownOk : Bool) :
    MainState × ApiResponse × List ProviderCall :=
  if shutdownOk then
    ({ s with store := s.store.clearState },
      { success := true, message := "SDK shutdown successfully" },
      [ProviderCall.shutdownCall])
  else
    (s, { success := false, message := "SDK shutdown failed" },
      [ProviderCall.shutdownCall])

/-- JavaScript truthiness of the `config.apiUrl` guard in the SET_CONFIG
handler: an absent field and the empty string are both falsy. -/
def jsTruthyStr : Option String → Bool
  | none => false
  | some v => !(v == "")

/-- main.ts SET_CONFIG handler (lines 408-439): merges the partial update
into the store unconditionally, then, if the SDK is initialized and the
update has a truthy `apiUrl` or a present `requestPermissionsOnStartup`,
calls `RecallAiSdk.shutdown` followed by `initializeSdk`; any throw from
either is converted to `{success: false}` (after the merge). -/
def setConfigHandler (s : MainState) (u : ConfigUpdate) (shutdownOk initOk : Bool) :
    MainState × ApiResponse × List ProviderCall :=
  let s1 := { s with store := s.store.setConfig u }
  if s1.store.sdkInitialized &&
      (jsTruthyStr u.apiUrl || u.requestPermissionsOnStartup.isSome) then
    if shutdownOk then
      match initSdkCore s1.store initOk with
      | (some st2, calls) =>
          ({ s1 with store := st2 },
            { success := true, message := "Configuration updated successfully" },
            ProviderCall.shutdownCall :: calls)
      | (none, calls) =>
          (s1, { success := false, message := "Failed to update configuration" },
            ProviderCall.shutdownCall :: calls)
    else
      (s1, { success := false, message := "Failed to update configuration" },
        [ProviderCall.shutdownCall])
  else
    (s1, { success := true, message := "Configuration updated successfully" }, [])

/- ### Operation sequences

One hub operation: an IPC request, a webContents destruction, or a
provider event.  Oracles for provider/send outcomes travel with the
operation, so a list of operations determines one concrete run. -/

inductive Op where
  | subscribe (wcId : WcId) (eventType : EventType)
  | unsubscribe (wcId : WcId) (eventType : EventType)
  | destroy (wcId : WcId)
  | initSdk (initOk : Bool)
  | shutdownSdk (shutdownOk : Bool)
  | setConfig (u : ConfigUpdate) (shutdownOk initOk : Bool)
  | providerEvent (eventType : EventType) (sideEffectThrows : Bool) (sendOk : WcId → Bool)

/-- State transition of one operation. -/
def step (s : MainState) : Op → MainState
  | .subscribe wcId k => (subscribeEvents s wcId k).1
  | .unsubscribe wcId k => (unsubscribeEvents s wcId k).1
  | .destroy wcId => destroyCleanup s wcId
  | .initSdk ok => (initSdkHandler s ok).1
  | .shutdownSdk ok => (shutdownSdkHandler s ok).1
  | .setConfig u a b => (setConfigHandler s u a b).1
  | .providerEvent k th f => (handleSdkEvent s k th f).1

/-- Provider calls issued by one operation. -/
def stepCalls (s : MainState) : Op → List ProviderCall
  | .subscribe wcId k => (subscribeEvents s wcId k).2.2
  | .unsubscribe _ _ => []
  | .destroy _ => []
  | .initSdk ok => (initSdkHandler s ok).2.2
  | .shutdownSdk ok => (shutdownSdkHandler s ok).2.2
  | .setConfig u a b => (setConfigHandler s u a b).2.2
  | .providerEvent _ _ _ => []

/-- Run a sequence of operations. -/
def run (s : MainState) : List Op → MainState
  | [] => s
  | op :: rest => run (step s op) rest

/-- All provider calls issued over a sequence of operations, in order. -/
def runCalls (s : MainState) : List Op → List ProviderCall
  | [] => []
  | op :: rest => stepCalls s op ++ runCalls (step s op) rest

/-- The process-start state: empty subscription/tracking/listener tables
and the store defaults of store.ts (lines 10-14, 16-17). -/
def initialMainState : MainState :=
  { subscriptions := []
    tracked := []
    sdkEventHandlers := []
    store :=
      { config :=
          { enabled := true
            apiUrl := "https://us-east-1.recall.ai"
            requestPermissionsOnStartup := true }
        sdkInitialized := false } }

/- ### Observables -/

/-- The refcount the code keeps for (kind, webContents id). -/
def subCount (s : MainState) (eventType : EventType) (wcId : WcId) : Nat :=
  match alGet s.subscriptions eventType with
  | none => 0
  | some m => (alGet m wcId).getD 0

/-- Number of successful deliveries to one webContents id in a broadcast
result. -/
def deliveredTo (wcId : WcId) (l : List (WcId × Bool)) : Nat :=
  (l.filter (fun p => p.1 == wcId && p.2)).length

/-- Number of `addEventListener` provider calls for one kind in a trace. -/
def countAddListener (eventType : EventType) (calls : List ProviderCall) : Nat :=
  (calls.filter (fun c => c == ProviderCall.addEventListener eventType)).length

/-- The net subscription count of the specification: subscribe increments,
unsubscribe decrements stopping at zero, disconnect resets to zero
(spec.md §3 "Subscription" and §4.3). -/
def specNetCount (eventType : EventType) (wcId : WcId) : List Op → Nat → Nat
  | [], n => n
  | op :: rest, n =>
      specNetCount eventType wcId rest
        (match op with
         | .subscribe w k => if w = wcId ∧ k = eventType then n + 1 else n
         | .unsubscribe w k => if w = wcId ∧ k = eventType then n - 1 else n
         | .destroy w => if w = wcId then 0 else n
         | _ => n)

/- ### Association-list lemmas -/

theorem alGet_alSet_self {α β : Type} [DecidableEq α] (l : List (α × β)) (k : α) (v : β) :
    alGet (alSet l k v) k = some v := by
  induction l with
  | nil => simp [alSet, alGet]
  | cons p rest ih =>
      by_cases h : p.1 = k
      · simp [alSet, alGet, h]
      · simp [alSet, alGet, h, ih]

theorem alGet_alSet_ne {α β : Type} [DecidableEq α] (l : List (α × β)) (k k' : α) (v : β)
    (h : k' ≠ k) : alGet (alSet l k v) k' = alGet l k' := by
  have h2 : ¬ k = k' := fun e => h e.symm
  induction l with
  | nil => simp [alSet, alGet, h2]
  | cons p rest ih =>
      by_cases hp : p.1 = k
      · simp [alSet, alGet, hp, h2]
      · simp [alSet, alGet, hp, ih]

theorem alGet_alDelete_self {α β : Type} [DecidableEq α] (l : List (α × β)) (k : α) :
    alGet (alDelete l k) k = none := by
  induction l with
  | nil => simp [alDelete, alGet]
  | cons p rest ih =>
      by_cases h : p.1 = k
      · simp [alDelete, h, ih]
      · simp [alDelete, alGet, h, ih]

theorem alGet_alDelete_ne {α β : Type} [DecidableEq α] (l : List (α × β)) (k k' : α)
    (h : k' ≠ k) : alGet (alDelete l k) k' = alGet l k' := by
  have h2 : ¬ k = k' := fun e => h e.symm
  induction l with
  | nil => simp [alDelete]
  | cons p rest ih =>
      by_cases hp : p.1 = k
      · have hp2 : ¬ p.1 = k' := by
          rw [hp]
          exact h2
        simp [alDelete, alGet, hp, hp2, ih]
        rw [if_neg h2]
      · simp [alDelete, alGet, hp, ih]

theorem mem_alSet {α β : Type} [DecidableEq α] (l : List (α × β)) (k : α) (v : β)
    (q : α × β) (hq : q ∈ alSet l k v) : q = (k, v) ∨ q ∈ l := by
  induction l with
  | nil => simpa [alSet] using hq
  | cons p rest ih =>
      by_cases hp : p.1 = k
      · simp only [alSet, hp, if_pos rfl] at hq
        rcases List.mem_cons.1 hq with h | h
        · exact Or.inl h
        · exact Or.inr (List.mem_cons_of_mem _ h)
      · simp only [alSet, hp, if_neg hp] at hq
        rcases List.mem_cons.1 hq with h | h
        · exact Or.inr (h ▸ List.mem_cons_self _ _)
        · rcases ih h with h' | h'
          · exact Or.inl h'
          · exact Or.inr (List.mem_cons_of_mem _ h')

theorem mem_alDelete {α β : Type} [DecidableEq α] (l : List (α × β)) (k : α)
    (q : α × β) (hq : q ∈ alDelete l k) : q.1 ≠ k ∧ q ∈ l := by
  induction l with
  | nil => simp [alDelete] at hq
  | cons p rest ih =>
      by_cases hp : p.1 = k
      · simp only [alDelete, if_pos hp] at hq
        exact ⟨(ih hq).1, List.mem_cons_of_mem _ (ih hq).2⟩
      · simp only [alDelete, if_neg hp] at hq
        rcases List.mem_cons.1 hq with h | h
        · exact ⟨h ▸ hp, h ▸ List.mem_cons_self _ _⟩
        · exact ⟨(ih h).1, List.mem_cons_of_mem _ (ih h).2⟩

theorem alGet_mem {α β : Type} [DecidableEq α] (l : List (α × β)) (k : α) (v : β)
    (h : alGet l k = some v) : (k, v) ∈ l := by
  induction l with
  | nil => simp [alGet] at h
  | cons p rest ih =>
      by_cases hp : p.1 = k
      · simp only [alGet, if_pos hp] at h
        have : p = (k, v) := by
          cases p
          simp_all
        exact this ▸ List.mem_cons_self _ _
      · simp only [alGet, if_neg hp] at h
        exact List.mem_cons_of_mem _ (ih h)

theorem alGet_eq_none_iff {α β : Type} [DecidableEq α] (l : List (α × β)) (k : α) :
    alGet l k = none ↔ k ∉ l.map Prod.fst := by
  induction l with
  | nil => simp [alGet]
  | cons p rest ih =>
      by_cases hp : p.1 = k
      · simp [alGet, hp]
      · have h2 : ¬ k = p.1 := fun e => hp e.symm
        simp [alGet, hp, ih, h2]

theorem keys_alSet_sub {α β : Type} [DecidableEq α] (l : List (α × β)) (k : α) (v : β)
    (x : α) (hx : x ∈ (alSet l k v).map Prod.fst) : x = k ∨ x ∈ l.map Prod.fst := by
  rcases List.mem_map.1 hx with ⟨q, hq, hq1⟩
  rcases mem_alSet l k v q hq with h | h
  · subst h
    exact Or.inl hq1.symm
  · exact Or.inr (hq1 ▸ List.mem_map_of_mem _ h)

theorem nodup_keys_alSet {α β : Type} [DecidableEq α] (l : List (α × β)) (k : α) (v : β)
    (h : (l.map Prod.fst).Nodup) : ((alSet l k v).map Prod.fst).Nodup := by
  induction l with
  | nil => simp [alSet]
  | cons p rest ih =>
      by_cases hp : p.1 = k
      · simp only [alSet, if_pos hp]
        simpa [hp] using h
      · simp only [alSet, if_neg hp, List.map_cons, List.nodup_cons] at h ⊢
        refine ⟨fun hc => ?_, ih h.2⟩
        rcases keys_alSet_sub rest k v p.1 hc with h' | h'
        · exact hp h'
        · exact h.1 h'

theorem nodup_keys_alDelete {α β : Type} [DecidableEq α] (l : List (α × β)) (k : α)
    (h : (l.map Prod.fst).Nodup) : ((alDelete l k).map Prod.fst).Nodup := by
  induction l with
  | nil => simp [alDelete]
  | cons p rest ih =>
      by_cases hp : p.1 = k
      · simp only [alDelete, if_pos hp]
        exact ih (List.nodup_cons.1 (by simpa using h)).2
      · simp only [alDelete, if_neg hp, List.map_cons, List.nodup_cons] at h ⊢
        refine ⟨fun hc => ?_, ih h.2⟩
        rcases List.mem_map.1 hc with ⟨q, hq, hq1⟩
        exact h.1 (hq1 ▸ List.mem_map_of_mem _ (mem_alDelete rest k q hq).2)

theorem alDelete_of_get_none {α β : Type} [DecidableEq α] (l : List (α × β)) (k : α)
    (h : alGet l k = none) : alDelete l k = l := by
  induction l with
  | nil => simp [alDelete]
  | cons p rest ih =>
      by_cases hp : p.1 = k
      · simp [alGet, hp] at h
      · simp only [alGet, if_neg hp] at h
        simp [alDelete, hp, ih h]

theorem alSet_of_get_eq {α β : Type} [DecidableEq α] (l : List (α × β)) (k : α) (v : β)
    (h : alGet l k = some v) : alSet l k v = l := by
  induction l with
  | nil => simp [alGet] at h
  | cons p rest ih =>
      by_cases hp : p.1 = k
      · simp only [alGet, if_pos hp] at h
        cases p
        simp_all [alSet]
      · simp only [alGet, if_neg hp] at h
        simp [alSet, hp, ih h]

theorem alGet_map_alDelete {α β : Type} [DecidableEq α] [DecidableEq β]
    (l : List (α × List (β × Nat))) (k : α) (w : β) :
    alGet (l.map (fun q => (q.1, alDelete q.2 w))) k =
      (alGet l k).map (fun mm => alDelete mm w) := by
  induction l with
  | nil => simp [alGet]
  | cons p rest ih =>
      by_cases hp : p.1 = k
      · simp [alGet, hp]
      · simp [alGet, hp, ih]

/- ### Frame lemmas: which fields each operation can touch -/

theorem initSdkHandler_frame (s : MainState) (ok : Bool) :
    (initSdkHandler s ok).1.subscriptions = s.subscriptions ∧
    (initSdkHandler s ok).1.tracked = s.tracked ∧
    (initSdkHandler s ok).1.sdkEventHandlers = s.sdkEventHandlers := by
  cases hE : s.store.config.enabled <;> cases hI : s.store.sdkInitialized <;> cases ok <;>
    simp [initSdkHandler, initSdkCore, hE, hI]

theorem shutdownSdkHandler_frame (s : MainState) (ok : Bool) :
    (shutdownSdkHandler s ok).1.subscriptions = s.subscriptions ∧
    (shutdownSdkHandler s ok).1.tracked = s.tracked ∧
    (shutdownSdkHandler s ok).1.sdkEventHandlers = s.sdkEventHandlers := by
  cases ok <;> simp [shutdownSdkHandler]

theorem setConfigHandler_frame (s : MainState) (u : ConfigUpdate) (a b : Bool) :
    (setConfigHandler s u a b).1.subscriptions = s.subscriptions ∧
    (setConfigHandler s u a b).1.tracked = s.tracked ∧
    (setConfigHandler s u a b).1.sdkEventHandlers = s.sdkEventHandlers := by
  cases hI : (s.store.setConfig u).sdkInitialized <;>
    cases hT : jsTruthyStr u.apiUrl || u.requestPermissionsOnStartup.isSome <;>
    cases a <;> cases b <;>
    simp [setConfigHandler, initSdkCore, hI, hT]

theorem handleSdkEvent_frame (s : MainState) (k : EventType) (th : Bool) (f : WcId → Bool) :
    (handleSdkEvent s k th f).1.subscriptions = s.subscriptions ∧
    (handleSdkEvent s k th f).1.tracked = s.tracked ∧
    (handleSdkEvent s k th f).1.sdkEventHandlers = s.sdkEventHandlers := by
  cases k <;> cases th <;> simp [handleSdkEvent, eventSideEffects]

theorem subscribeEvents_store (s : MainState) (w : WcId) (k : EventType) :
    (subscribeEvents s w k).1.store = s.store := by
  by_cases hT : w ∈ s.tracked <;> by_cases hH : k ∈ s.sdkEventHandlers <;>
    simp [subscribeEvents, addDestroyedCleanup, ensureSdkListener, hT, hH]

theorem unsubscribeEvents_store (s : MainState) (w : WcId) (k : EventType) :
    (unsubscribeEvents s w k).1.store = s.store := by
  cases hm : alGet s.subscriptions k <;> simp [unsubscribeEvents, hm]

theorem unsubscribeEvents_frame (s : MainState) (w : WcId) (k : EventType) :
    (unsubscribeEvents s w k).1.tracked = s.tracked ∧
    (unsubscribeEvents s w k).1.sdkEventHandlers = s.sdkEventHandlers := by
  cases hm : alGet s.subscriptions k <;> simp [unsubscribeEvents, hm]

/- ### The reachable-state invariant -/

/-- Structural invariant of every reachable state: tracked ids are listed
once, every subscription map has pairwise-distinct keys, and every entry
has refcount at least 1 and belongs to a tracked webContents. -/
def StateInv (s : MainState) : Prop :=
  s.tracked.Nodup ∧
  ∀ q ∈ s.subscriptions, (q.2.map Prod.fst).Nodup ∧ ∀ p ∈ q.2, 1 ≤ p.2 ∧ p.1 ∈ s.tracked

theorem stateInv_initial : StateInv initialMainState := by
  constructor
  · simp [initialMainState]
  · intro q hq
    simp [initialMainState] at hq

theorem stateInv_subscribe (s : MainState) (w : WcId) (k : EventType)
    (h : StateInv s) : StateInv (subscribeEvents s w k).1 := by
  obtain ⟨hT, hS⟩ := h
  have hsub : ∀ x ∈ s.tracked, x ∈ (addDestroyedCleanup s w).tracked := by
    intro x hx
    by_cases hw : w ∈ s.tracked <;> simp [addDestroyedCleanup, hw, hx]
  have hwmem : w ∈ (addDestroyedCleanup s w).tracked := by
    by_cases hw : w ∈ s.tracked <;> simp [addDestroyedCleanup, hw]
  have htnd : (addDestroyedCleanup s w).tracked.Nodup := by
    by_cases hw : w ∈ s.tracked <;> simp [addDestroyedCleanup, hw, hT, List.nodup_append, hw]
  have hsubs1 : (addDestroyedCleanup s w).subscriptions = s.subscriptions := by
    by_cases hw : w ∈ s.tracked <;> simp [addDestroyedCleanup, hw]
  -- the state after the subscription-map update
  set m : List (WcId × Nat) := (alGet s.subscriptions k).getD [] with hm
  have hmInv : (m.map Prod.fst).Nodup ∧ ∀ p ∈ m, 1 ≤ p.2 ∧ p.1 ∈ s.tracked := by
    cases hg : alGet s.subscriptions k with
    | none => simp [hm, hg]
    | some m0 =>
        have := hS (k, m0) (alGet_mem _ _ _ hg)
        simpa [hm, hg] using this
  have hstep : (subscribeEvents s w k).1.subscriptions =
      alSet s.subscriptions k (alSet m w (((alGet m w).getD 0) + 1)) ∧
      (subscribeEvents s w k).1.tracked = (addDestroyedCleanup s w).tracked := by
    by_cases hH : k ∈ (addDestroyedCleanup s w).sdkEventHandlers <;>
      simp [subscribeEvents, ensureSdkListener, hsubs1, hH, hm]
  constructor
  · rw [hstep.2]
    exact htnd
  · intro q hq
    rw [hstep.1] at hq
    rcases mem_alSet _ _ _ _ hq with hq' | hq'
    · subst hq'
      constructor
      · exact nodup_keys_alSet _ _ _ hmInv.1
      · intro p hp
        rcases mem_alSet _ _ _ _ hp with hp' | hp'
        · subst hp'
          refine ⟨by omega, by rw [hstep.2]; exact hwmem⟩
        · have := hmInv.2 p hp'
          exact ⟨this.1, by rw [hstep.2]; exact hsub _ this.2⟩
    · have := hS q hq'
      refine ⟨this.1, fun p hp => ⟨(this.2 p hp).1, ?_⟩⟩
      rw [hstep.2]
      exact hsub _ (this.2 p hp).2

theorem stateInv_unsubscribe (s : MainState) (w : WcId) (k : EventType)
    (h : StateInv s) : StateInv (unsubscribeEvents s w k).1 := by
  obtain ⟨hT, hS⟩ := h
  obtain ⟨ht, _⟩ := unsubscribeEvents_frame s w k
  constructor
  · rw [ht]
    exact hT
  · intro q hq
    rw [ht]
    cases hg : alGet s.subscriptions k with
    | none => exact hS q (by simpa [unsubscribeEvents, hg] using hq)
    | some m =>
        have hmInv := hS (k, m) (alGet_mem _ _ _ hg)
        simp only [unsubscribeEvents, hg] at hq
        rcases mem_alSet _ _ _ _ hq with hq' | hq'
        · subst hq'
          by_cases hp1 : (alGet m w).getD 0 ≤ 1
          · simp only [if_pos hp1]
            refine ⟨nodup_keys_alDelete _ _ hmInv.1, fun p hp => ?_⟩
            exact hmInv.2 p (mem_alDelete _ _ _ hp).2
          · simp only [if_neg hp1]
            refine ⟨nodup_keys_alSet _ _ _ hmInv.1, fun p hp => ?_⟩
            rcases mem_alSet _ _ _ _ hp with hp' | hp'
            · subst hp'
              have hw : alGet m w = some ((alGet m w).getD 0) := by
                cases hgw : alGet m w with
                | none => simp [hgw] at hp1
                | some n => simp [hgw]
              exact ⟨by omega, (hmInv.2 _ (alGet_mem _ _ _ hw)).2⟩
            · exact hmInv.2 p hp'
        · exact hS q hq'

theorem stateInv_destroy (s : MainState) (w : WcId)
    (h : StateInv s) : StateInv (destroyCleanup s w) := by
  obtain ⟨hT, hS⟩ := h
  by_cases hw : w ∈ s.tracked
  · constructor
    · simpa [destroyCleanup, hw] using hT.erase w
    · intro q hq
      simp only [destroyCleanup, if_pos hw] at hq ⊢
      rcases List.mem_map.1 hq with ⟨q0, hq0, hq0e⟩
      subst hq0e
      have := hS q0 hq0
      refine ⟨nodup_keys_alDelete _ _ this.1, fun p hp => ?_⟩
      have hpm := mem_alDelete _ _ _ hp
      refine ⟨(this.2 p hpm.2).1, ?_⟩
      exact (List.mem_erase_of_ne hpm.1).2 (this.2 p hpm.2).2
  · simpa [destroyCleanup, hw] using ⟨hT, hS⟩

theorem stateInv_of_frame (s s2 : MainState)
    (h1 : s2.subscriptions = s.subscriptions) (h2 : s2.tracked = s.tracked)
    (h : StateInv s) : StateInv s2 := by
  constructor
  · rw [h2]
    exact h.1
  · intro q hq
    rw [h1] at hq
    rw [h2]
    exact h.2 q hq

theorem stateInv_step (s : MainState) (op : Op) (h : StateInv s) : StateInv (step s op) := by
  cases op with
  | subscribe w k => exact stateInv_subscribe s w k h
  | unsubscribe w k => exact stateInv_unsubscribe s w k h
  | destroy w => exact stateInv_destroy s w h
  | initSdk ok =>
      exact stateInv_of_frame s _ (initSdkHandler_frame s ok).1
        (initSdkHandler_frame s ok).2.1 h
  | shutdownSdk ok =>
      exact stateInv_of_frame s _ (shutdownSdkHandler_frame s ok).1
        (shutdownSdkHandler_frame s ok).2.1 h
  | setConfig u a b =>
      exact stateInv_of_frame s _ (setConfigHandler_frame s u a b).1
        (setConfigHandler_frame s u a b).2.1 h
  | providerEvent k th f =>
      exact stateInv_of_frame s _ (handleSdkEvent_frame s k th f).1
        (handleSdkEvent_frame s k th f).2.1 h

theorem stateInv_run (s : MainState) (ops : List Op) (h : StateInv s) :
    StateInv (run s ops) := by
  induction ops generalizing s with
  | nil => exact h
  | cons op rest ih => exact ih _ (stateInv_step s op h)

theorem run_append (s : MainState) (l1 l2 : List Op) :
    run s (l1 ++ l2) = run (run s l1) l2 := by
  induction l1 generalizing s with
  | nil => rfl
  | cons op rest ih => simpa [run] using ih (step s op)

/- ### Counting deliveries in a broadcast -/

theorem deliveredTo_nil (C : WcId) : deliveredTo C [] = 0 := rfl

theorem deliveredTo_cons (C : WcId) (a : WcId × Bool) (l : List (WcId × Bool)) :
    deliveredTo C (a :: l) =
      (if a.1 = C ∧ a.2 = true then 1 else 0) + deliveredTo C l := by
  simp only [deliveredTo, List.filter_cons]
  by_cases h : a.1 = C ∧ a.2 = true
  · rw [if_pos h, if_pos (by simp [h.1, h.2])]
    simp [Nat.add_comm]
  · rw [if_neg h, if_neg (by simpa [Decidable.not_and_iff_or_not] using h)]
    simp

theorem deliveredTo_filterMap_zero (tr : List WcId) (f : WcId → Bool) (C : WcId)
    (m : List (WcId × Nat)) (hC : C ∉ m.map Prod.fst) :
    deliveredTo C
      (m.filterMap (fun p => if p.1 ∈ tr then some (p.1, f p.1) else none)) = 0 := by
  induction m with
  | nil => rfl
  | cons p rest ih =>
      have hp : ¬ p.1 = C := by
        intro e
        exact hC (by simp [e])
      have hrest : C ∉ rest.map Prod.fst := fun hx => hC (by simp [hx])
      by_cases ht : p.1 ∈ tr
      · simpa [List.filterMap_cons, ht, deliveredTo_cons, hp] using ih hrest
      · simpa [List.filterMap_cons, ht] using ih hrest

theorem deliveredTo_filterMap_mem (tr : List WcId) (f : WcId → Bool) (C : WcId)
    (m : List (WcId × Nat)) (hnd : (m.map Prod.fst).Nodup)
    (hC : C ∈ m.map Prod.fst) (hCt : C ∈ tr) :
    deliveredTo C
      (m.filterMap (fun p => if p.1 ∈ tr then some (p.1, f p.1) else none)) =
      if f C then 1 else 0 := by
  induction m with
  | nil => simp at hC
  | cons p rest ih =>
      simp only [List.map_cons, List.nodup_cons] at hnd
      by_cases hp : p.1 = C
      · have hrest : C ∉ rest.map Prod.fst := hp ▸ hnd.1
        have hz := deliveredTo_filterMap_zero tr f C rest hrest
        rw [List.filterMap_cons]
        rw [if_pos (hp ▸ hCt)]
        rw [deliveredTo_cons, hz]
        by_cases hf : f C
        · simp [hp, hf]
        · simp only [hp]
          simp [hf, Bool.eq_false_iff.2 hf]
      · have hrest : C ∈ rest.map Prod.fst := by
          rw [List.map_cons] at hC
          rcases List.mem_cons.1 hC with h | h
          · exact absurd h.symm hp
          · exact h
        rw [List.filterMap_cons]
        by_cases ht : p.1 ∈ tr
        · rw [if_pos ht, deliveredTo_cons]
          simp only [hp, false_and, if_false]
          simpa using ih hnd.2 hrest
        · rw [if_neg ht]
          exact ih hnd.2 hrest

/-- In a state satisfying the invariant, one broadcast delivers to a given
webContents id exactly once when its refcount is positive and its send
succeeds, and zero times otherwise. -/
theorem deliveredTo_broadcast (s : MainState) (hInv : StateInv s)
    (K : EventType) (C : WcId) (f : WcId → Bool) :
    deliveredTo C (broadcastEvent s K f) =
      if 0 < subCount s K C ∧ f C = true then 1 else 0 := by
  unfold broadcastEvent subCount
  cases hm : alGet s.subscriptions K with
  | none => simp [deliveredTo_nil]
  | some m =>
      have hmInv := hInv.2 (K, m) (alGet_mem _ _ _ hm)
      cases hc : alGet m C with
      | none =>
          have hnc : C ∉ m.map Prod.fst := (alGet_eq_none_iff m C).1 hc
          rw [deliveredTo_filterMap_zero s.tracked f C m hnc]
          simp [hc]
      | some n =>
          have hcm : (C, n) ∈ m := alGet_mem _ _ _ hc
          have hn1 : 1 ≤ n := (hmInv.2 _ hcm).1
          have hct : C ∈ s.tracked := (hmInv.2 _ hcm).2
          have hkeys : C ∈ m.map Prod.fst := by
            simpa using List.mem_map_of_mem Prod.fst hcm
          rw [deliveredTo_filterMap_mem s.tracked f C m hmInv.1 hkeys hct]
          by_cases hf : f C
          · have h0 : 0 < n := by omega
            simp [hc, hf, h0]
          · simp [hc, hf, Bool.eq_false_iff.2 hf]

/- ### How each operation moves one (kind, webContents) refcount -/

theorem subCount_subscribe (s : MainState) (w : WcId) (k : EventType)
    (K : EventType) (C : WcId) :
    subCount (subscribeEvents s w k).1 K C =
      if w = C ∧ k = K then subCount s K C + 1 else subCount s K C := by
  have hsubs1 : (addDestroyedCleanup s w).subscriptions = s.subscriptions := by
    by_cases hw : w ∈ s.tracked <;> simp [addDestroyedCleanup, hw]
  have hstep : (subscribeEvents s w k).1.subscriptions =
      alSet s.subscriptions k
        (alSet ((alGet s.subscriptions k).getD []) w
          (((alGet ((alGet s.subscriptions k).getD []) w).getD 0) + 1)) := by
    by_cases hH : k ∈ (addDestroyedCleanup s w).sdkEventHandlers <;>
      simp [subscribeEvents, ensureSdkListener, hsubs1, hH]
  by_cases hk : k = K
  · subst hk
    by_cases hw : w = C
    · subst hw
      rw [if_pos ⟨rfl, rfl⟩]
      cases hg : alGet s.subscriptions k <;>
        simp [subCount, hstep, hg, alGet_alSet_self, alGet]
    · have hw2 : C ≠ w := fun e => hw e.symm
      rw [if_neg (fun h => hw h.1)]
      cases hg : alGet s.subscriptions k <;>
        simp [subCount, hstep, hg, alGet_alSet_self, alGet_alSet_ne, hw2, hw, alGet]
  · have hk2 : K ≠ k := fun e => hk e.symm
    rw [if_neg (fun h => hk h.2)]
    simp [subCount, hstep, alGet_alSet_ne, hk2]

theorem subCount_unsubscribe (s : MainState) (w : WcId) (k : EventType)
    (K : EventType) (C : WcId) :
    subCount (unsubscribeEvents s w k).1 K C =
      if w = C ∧ k = K then subCount s K C - 1 else subCount s K C := by
  cases hg : alGet s.subscriptions k with
  | none =>
      by_cases hc : w = C ∧ k = K
      · rw [if_pos hc]
        obtain ⟨hcw, hck⟩ := hc
        subst hcw
        subst hck
        simp [subCount, unsubscribeEvents, hg]
      · rw [if_neg hc]
        simp [subCount, unsubscribeEvents, hg]
  | some m =>
      by_cases hk : k = K
      · subst hk
        by_cases hw : w = C
        · subst hw
          rw [if_pos ⟨rfl, rfl⟩]
          by_cases hp1 : (alGet m w).getD 0 ≤ 1
          · simp [subCount, unsubscribeEvents, hg, hp1, alGet_alSet_self,
              alGet_alDelete_self]
          · simp [subCount, unsubscribeEvents, hg, hp1, alGet_alSet_self]
        · have hw2 : C ≠ w := fun e => hw e.symm
          rw [if_neg (fun h => hw h.1)]
          by_cases hp1 : (alGet m w).getD 0 ≤ 1
          · simp [subCount, unsubscribeEvents, hg, hp1, alGet_alSet_self,
              alGet_alDelete_ne, hw2]
          · simp [subCount, unsubscribeEvents, hg, hp1, alGet_alSet_self,
              alGet_alSet_ne, hw2]
      · have hk2 : K ≠ k := fun e => hk e.symm
        rw [if_neg (fun h => hk h.2)]
        simp [subCount, unsubscribeEvents, hg, alGet_alSet_ne, hk2]

theorem subCount_destroy_self (s : MainState) (C : WcId) (K : EventType)
    (hInv : StateInv s) : subCount (destroyCleanup s C) K C = 0 := by
  by_cases hw : C ∈ s.tracked
  · cases hg : alGet s.subscriptions K <;>
      simp [subCount, destroyCleanup, hw, alGet_map_alDelete, hg, alGet_alDelete_self]
  · simp only [destroyCleanup, if_neg hw]
    cases hg : alGet s.subscriptions K with
    | none => simp [subCount, hg]
    | some m =>
        cases hc : alGet m C with
        | none => simp [subCount, hg, hc]
        | some n =>
            have := (hInv.2 (K, m) (alGet_mem _ _ _ hg)).2 _ (alGet_mem _ _ _ hc)
            exact absurd this.2 hw

theorem subCount_destroy_other (s : MainState) (w : WcId) (K : EventType) (C : WcId)
    (h : C ≠ w) : subCount (destroyCleanup s w) K C = subCount s K C := by
  by_cases hw : w ∈ s.tracked
  · cases hg : alGet s.subscriptions K with
    | none => simp [subCount, destroyCleanup, hw, alGet_map_alDelete, hg]
    | some m =>
        simp [subCount, destroyCleanup, hw, alGet_map_alDelete, hg,
          alGet_alDelete_ne _ _ _ h]
  · simp [destroyCleanup, hw]

theorem subCount_frame (s s2 : MainState) (h1 : s2.subscriptions = s.subscriptions)
    (K : EventType) (C : WcId) : subCount s2 K C = subCount s K C := by
  unfold subCount
  rw [h1]

/- ### Refcounts across whole runs -/

theorem subCount_step (s : MainState) (op : Op) (K : EventType) (C : WcId)
    (hInv : StateInv s) :
    subCount (step s op) K C =
      match op with
      | .subscribe w k => if w = C ∧ k = K then subCount s K C + 1 else subCount s K C
      | .unsubscribe w k => if w = C ∧ k = K then subCount s K C - 1 else subCount s K C
      | .destroy w => if w = C then 0 else subCount s K C
      | _ => subCount s K C := by
  cases op with
  | subscribe w k => exact subCount_subscribe s w k K C
  | unsubscribe w k => exact subCount_unsubscribe s w k K C
  | destroy w =>
      by_cases hw : w = C
      · subst hw
        simpa using subCount_destroy_self s w K hInv
      · have h2 : C ≠ w := fun e => hw e.symm
        simpa [hw] using subCount_destroy_other s w K C h2
  | initSdk ok => exact subCount_frame _ _ (initSdkHandler_frame s ok).1 K C
  | shutdownSdk ok => exact subCount_frame _ _ (shutdownSdkHandler_frame s ok).1 K C
  | setConfig u a b => exact subCount_frame _ _ (setConfigHandler_frame s u a b).1 K C
  | providerEvent k th f => exact subCount_frame _ _ (handleSdkEvent_frame s k th f).1 K C

theorem subCount_run_spec (K : EventType) (C : WcId) (ops : List Op) (s : MainState)
    (hInv : StateInv s) :
    subCount (run s ops) K C = specNetCount K C ops (subCount s K C) := by
  induction ops generalizing s with
  | nil => rfl
  | cons op rest ih =>
      have hstep := subCount_step s op K C hInv
      have hrest := ih (step s op) (stateInv_step s op hInv)
      rw [show run s (op :: rest) = run (step s op) rest from rfl]
      rw [hrest, hstep]
      cases op <;> rfl

/-- The payload list handed to subscribers by `handleSdkEvent` is the
broadcast computed after the side effect; since side effects only touch the
store, it equals the broadcast over the incoming state. -/
theorem handleSdkEvent_snd (s : MainState) (k : EventType) (th : Bool)
    (f : WcId → Bool) : (handleSdkEvent s k th f).2 = broadcastEvent s k f := by
  cases k <;> cases th <;> rfl

/- ### A disconnected consumer stays unreachable -/

/-- After its destroyed-cleanup has run, a webContents id is untracked and
has no entry in any kind's subscription map. -/
def Gone (C : WcId) (s : MainState) : Prop :=
  C ∉ s.tracked ∧ ∀ q ∈ s.subscriptions, alGet q.2 C = none

theorem gone_destroy (s : MainState) (C : WcId) (hInv : StateInv s) :
    Gone C (destroyCleanup s C) := by
  by_cases hw : C ∈ s.tracked
  · constructor
    · simp only [destroyCleanup, if_pos hw]
      intro hx
      exact ((hInv.1.mem_erase_iff).1 hx).1 rfl
    · intro q hq
      simp only [destroyCleanup, if_pos hw] at hq
      rcases List.mem_map.1 hq with ⟨q0, _, hq0e⟩
      subst hq0e
      exact alGet_alDelete_self _ _
  · refine ⟨by simp [destroyCleanup, hw], fun q hq => ?_⟩
    simp only [destroyCleanup, if_neg hw] at hq
    cases hc : alGet q.2 C with
    | none => rfl
    | some n =>
        have := (hInv.2 q hq).2 _ (alGet_mem _ _ _ hc)
        exact absurd this.2 hw

theorem gone_frame (s s2 : MainState) (C : WcId)
    (h1 : s2.subscriptions = s.subscriptions) (h2 : s2.tracked = s.tracked)
    (hG : Gone C s) : Gone C s2 := by
  refine ⟨h2 ▸ hG.1, fun q hq => hG.2 q (h1 ▸ hq)⟩

theorem gone_step (s : MainState) (C : WcId) (op : Op) (hG : Gone C s)
    (hop : ∀ K, op ≠ Op.subscribe C K) : Gone C (step s op) := by
  cases op with
  | subscribe w k =>
      show Gone C (subscribeEvents s w k).1
      have hwC : w ≠ C := by
        intro e
        exact hop k (by rw [e])
      have hCw : C ≠ w := fun e => hwC e.symm
      constructor
      · show C ∉ (subscribeEvents s w k).1.tracked
        have htr : (subscribeEvents s w k).1.tracked = (addDestroyedCleanup s w).tracked := by
          by_cases hH : k ∈ (addDestroyedCleanup s w).sdkEventHandlers <;>
            simp [subscribeEvents, ensureSdkListener, hH]
        rw [htr]
        by_cases hw : w ∈ s.tracked
        · simpa [addDestroyedCleanup, hw] using hG.1
        · simp [addDestroyedCleanup, hw, hG.1, hCw]
      · intro q hq
        have hsubs1 : (addDestroyedCleanup s w).subscriptions = s.subscriptions := by
          by_cases hw : w ∈ s.tracked <;> simp [addDestroyedCleanup, hw]
        have hstep : (subscribeEvents s w k).1.subscriptions =
            alSet s.subscriptions k
              (alSet ((alGet s.subscriptions k).getD []) w
                (((alGet ((alGet s.subscriptions k).getD []) w).getD 0) + 1)) := by
          by_cases hH : k ∈ (addDestroyedCleanup s w).sdkEventHandlers <;>
            simp [subscribeEvents, ensureSdkListener, hsubs1, hH]
        rw [hstep] at hq
        rcases mem_alSet _ _ _ _ hq with hq' | hq'
        · subst hq'
          rw [alGet_alSet_ne _ _ _ _ hCw]
          cases hg : alGet s.subscriptions k with
          | none => simp [alGet]
          | some m0 => simpa [hg] using hG.2 (k, m0) (alGet_mem _ _ _ hg)
        · exact hG.2 q hq'
  | unsubscribe w k =>
      show Gone C (unsubscribeEvents s w k).1
      refine ⟨(unsubscribeEvents_frame s w k).1 ▸ hG.1, fun q hq => ?_⟩
      show alGet q.2 C = none
      cases hg : alGet s.subscriptions k with
      | none => exact hG.2 q (by simpa [unsubscribeEvents, hg] using hq)
      | some m =>
          have hmC : alGet m C = none := hG.2 (k, m) (alGet_mem _ _ _ hg)
          simp only [unsubscribeEvents, hg] at hq
          rcases mem_alSet _ _ _ _ hq with hq' | hq'
          · subst hq'
            by_cases hp1 : (alGet m w).getD 0 ≤ 1
            · simp only [if_pos hp1]
              by_cases hw : w = C
              · subst hw
                exact alGet_alDelete_self _ _
              · rw [alGet_alDelete_ne _ _ _ (fun e => hw e.symm)]
                exact hmC
            · simp only [if_neg hp1]
              have hw : w ≠ C := by
                intro e
                subst e
                simp [hmC] at hp1
              rw [alGet_alSet_ne _ _ _ _ (fun e => hw e.symm)]
              exact hmC
          · exact hG.2 q hq'
  | destroy w =>
      show Gone C (destroyCleanup s w)
      by_cases hw : w ∈ s.tracked
      · constructor
        · simp only [destroyCleanup, if_pos hw]
          intro hx
          exact hG.1 (List.mem_of_mem_erase hx)
        · intro q hq
          simp only [destroyCleanup, if_pos hw] at hq
          rcases List.mem_map.1 hq with ⟨q0, hq0, hq0e⟩
          subst hq0e
          by_cases hwC : w = C
          · subst hwC
            exact alGet_alDelete_self _ _
          · rw [alGet_alDelete_ne _ _ _ (fun e => hwC e.symm)]
            exact hG.2 q0 hq0
      · simpa [destroyCleanup, hw] using hG
  | initSdk ok =>
      exact gone_frame s _ C (initSdkHandler_frame s ok).1 (initSdkHandler_frame s ok).2.1 hG
  | shutdownSdk ok =>
      exact gone_frame s _ C (shutdownSdkHandler_frame s ok).1
        (shutdownSdkHandler_frame s ok).2.1 hG
  | setConfig u a b =>
      exact gone_frame s _ C (setConfigHandler_frame s u a b).1
        (setConfigHandler_frame s u a b).2.1 hG
  | providerEvent k th f =>
      exact gone_frame s _ C (handleSdkEvent_frame s k th f).1
        (handleSdkEvent_frame s k th f).2.1 hG

theorem gone_run (C : WcId) (ops : List Op) (s : MainState) (hG : Gone C s)
    (hops : ∀ K, Op.subscribe C K ∉ ops) : Gone C (run s ops) := by
  induction ops generalizing s with
  | nil => exact hG
  | cons op rest ih =>
      have hop : ∀ K, op ≠ Op.subscribe C K := by
        intro K e
        exact hops K (by rw [e]; exact List.mem_cons_self _ _)
      have hrest : ∀ K, Op.subscribe C K ∉ rest := by
        intro K hmem
        exact hops K (List.mem_cons_of_mem _ hmem)
      exact ih (step s op) (gone_step s C op hG hop) hrest

theorem gone_subCount (s : MainState) (C : WcId) (K : EventType) (hG : Gone C s) :
    subCount s K C = 0 := by
  unfold subCount
  cases hg : alGet s.subscriptions K with
  | none => rfl
  | some m => simp [hG.2 (K, m) (alGet_mem _ _ _ hg)]

theorem gone_deliveredTo (s : MainState) (C : WcId) (K : EventType) (f : WcId → Bool)
    (hG : Gone C s) : deliveredTo C (broadcastEvent s K f) = 0 := by
  unfold broadcastEvent
  cases hg : alGet s.subscriptions K with
  | none => rfl
  | some m =>
      have hmC : alGet m C = none := hG.2 (K, m) (alGet_mem _ _ _ hg)
      exact deliveredTo_filterMap_zero _ _ _ _ ((alGet_eq_none_iff m C).1 hmC)

theorem gone_unsubscribe_noop (s : MainState) (C : WcId) (K : EventType) (hG : Gone C s) :
    (unsubscribeEvents s C K).1 = s := by
  cases hg : alGet s.subscriptions K with
  | none => simp [unsubscribeEvents, hg]
  | some m =>
      have hmC : alGet m C = none := hG.2 (K, m) (alGet_mem _ _ _ hg)
      simp only [unsubscribeEvents, hg, hmC]
      rw [if_pos (by simp)]
      rw [alDelete_of_get_none m C hmC, alSet_of_get_eq _ _ _ hg]

/- ### Counting provider listener registrations -/

theorem countAddListener_append (K : EventType) (a b : List ProviderCall) :
    countAddListener K (a ++ b) = countAddListener K a + countAddListener K b := by
  simp [countAddListener, List.filter_append]

theorem subscribeEvents_handlers (s : MainState) (w : WcId) (k : EventType) :
    (subscribeEvents s w k).1.sdkEventHandlers =
      if k ∈ s.sdkEventHandlers then s.sdkEventHandlers
      else s.sdkEventHandlers ++ [k] := by
  by_cases hH : k ∈ s.sdkEventHandlers <;>
    simp [subscribeEvents, ensureSdkListener, addDestroyedCleanup, hH] <;>
    by_cases hw : w ∈ s.tracked <;> simp [hw, hH]

theorem subscribeEvents_calls (s : MainState) (w : WcId) (k : EventType) :
    (subscribeEvents s w k).2.2 =
      if k ∈ s.sdkEventHandlers then []
      else [ProviderCall.addEventListener k] := by
  by_cases hH : k ∈ s.sdkEventHandlers <;>
    simp [subscribeEvents, ensureSdkListener, addDestroyedCleanup, hH] <;>
    by_cases hw : w ∈ s.tracked <;> simp [hw, hH]

theorem sublist_of_handlers_eq {s s2 : MainState}
    (h : s2.sdkEventHandlers = s.sdkEventHandlers) :
    s.sdkEventHandlers.Sublist s2.sdkEventHandlers := by
  rw [h]

theorem not_mem_handlers_of_eq {K : EventType} {s s2 : MainState}
    (h : s2.sdkEventHandlers = s.sdkEventHandlers) (hK : K ∉ s.sdkEventHandlers) :
    K ∉ s2.sdkEventHandlers := by
  rw [h]
  exact hK

theorem handlers_sublist_step (s : MainState) (op : Op) :
    s.sdkEventHandlers.Sublist (step s op).sdkEventHandlers := by
  cases op with
  | subscribe w k =>
      rw [show (step s (Op.subscribe w k)).sdkEventHandlers =
        (subscribeEvents s w k).1.sdkEventHandlers from rfl]
      rw [subscribeEvents_handlers]
      by_cases hH : k ∈ s.sdkEventHandlers
      · simp [hH]
      · simp [hH, List.sublist_append_left]
  | unsubscribe w k => exact sublist_of_handlers_eq (unsubscribeEvents_frame s w k).2
  | destroy w =>
      by_cases hw : w ∈ s.tracked <;> simp [step, destroyCleanup, hw]
  | initSdk ok => exact sublist_of_handlers_eq (initSdkHandler_frame s ok).2.2
  | shutdownSdk ok => exact sublist_of_handlers_eq (shutdownSdkHandler_frame s ok).2.2
  | setConfig u a b => exact sublist_of_handlers_eq (setConfigHandler_frame s u a b).2.2
  | providerEvent k th f => exact sublist_of_handlers_eq (handleSdkEvent_frame s k th f).2.2

theorem handlers_sublist_run (s : MainState) (ops : List Op) :
    s.sdkEventHandlers.Sublist (run s ops).sdkEventHandlers := by
  induction ops generalizing s with
  | nil => exact List.Sublist.refl _
  | cons op rest ih => exact (handlers_sublist_step s op).trans (ih (step s op))

theorem countAdd_stepCalls (s : MainState) (op : Op) (K : EventType) :
    countAddListener K (stepCalls s op) =
      match op with
      | .subscribe _ k => if k = K ∧ k ∉ s.sdkEventHandlers then 1 else 0
      | _ => 0 := by
  cases op with
  | subscribe w k =>
      rw [show stepCalls s (Op.subscribe w k) = (subscribeEvents s w k).2.2 from rfl]
      rw [subscribeEvents_calls]
      by_cases hH : k ∈ s.sdkEventHandlers
      · simp [hH, countAddListener]
      · by_cases hk : k = K
        · subst hk
          simp [hH, countAddListener]
        · simp [hH, hk, countAddListener]
  | unsubscribe w k => rfl
  | destroy w => rfl
  | initSdk ok =>
      cases hE : s.store.config.enabled <;> cases hI : s.store.sdkInitialized <;> cases ok <;>
        simp [stepCalls, initSdkHandler, initSdkCore, hE, hI, countAddListener]
  | shutdownSdk ok => cases ok <;> simp [stepCalls, shutdownSdkHandler, countAddListener]
  | setConfig u a b =>
      cases hI : (s.store.setConfig u).sdkInitialized <;>
        cases hT : jsTruthyStr u.apiUrl || u.requestPermissionsOnStartup.isSome <;>
        cases a <;> cases b <;>
        simp [stepCalls, setConfigHandler, initSdkCore, hI, hT, countAddListener]
  | providerEvent k th f => rfl

theorem countAdd_run_of_mem (K : EventType) (ops : List Op) (s : MainState)
    (h : K ∈ s.sdkEventHandlers) : countAddListener K (runCalls s ops) = 0 := by
  induction ops generalizing s with
  | nil => rfl
  | cons op rest ih =>
      rw [show runCalls s (op :: rest) = stepCalls s op ++ runCalls (step s op) rest from rfl]
      rw [countAddListener_append]
      have hstep : countAddListener K (stepCalls s op) = 0 := by
        rw [countAdd_stepCalls]
        cases op with
        | subscribe w k =>
            by_cases hk : k = K
            · subst hk
              simp [h]
            · simp [hk]
        | unsubscribe w k => rfl
        | destroy w => rfl
        | initSdk ok => rfl
        | shutdownSdk ok => rfl
        | setConfig u a b => rfl
        | providerEvent k th f => rfl
      rw [hstep, ih (step s op) ((handlers_sublist_step s op).subset h)]

theorem countAdd_run_of_not_mem (K : EventType) (ops : List Op) (s : MainState)
    (h : K ∉ s.sdkEventHandlers) :
    countAddListener K (runCalls s ops) ≤ 1 ∧
    (K ∈ (run s ops).sdkEventHandlers ↔ countAddListener K (runCalls s ops) = 1) := by
  induction ops generalizing s with
  | nil =>
      refine ⟨by simp [runCalls, countAddListener], ?_⟩
      simp only [run, runCalls, countAddListener, List.filter_nil, List.length_nil]
      exact ⟨fun hm => absurd hm h, by omega⟩
  | cons op rest ih =>
      rw [show runCalls s (op :: rest) = stepCalls s op ++ runCalls (step s op) rest from rfl]
      rw [show run s (op :: rest) = run (step s op) rest from rfl]
      rw [countAddListener_append]
      by_cases hsub : ∃ w, op = Op.subscribe w K
      · obtain ⟨w, rfl⟩ := hsub
        have hmem : K ∈ (step s (Op.subscribe w K)).sdkEventHandlers := by
          rw [show (step s (Op.subscribe w K)).sdkEventHandlers =
            (subscribeEvents s w K).1.sdkEventHandlers from rfl]
          rw [subscribeEvents_handlers]
          simp [h]
        have hcalls : countAddListener K (stepCalls s (Op.subscribe w K)) = 1 := by
          rw [countAdd_stepCalls]
          simp [h]
        rw [hcalls, countAdd_run_of_mem K rest _ hmem]
        refine ⟨by omega, ?_⟩
        have : K ∈ (run (step s (Op.subscribe w K)) rest).sdkEventHandlers :=
          (handlers_sublist_run _ rest).subset hmem
        simp [this]
      · have hK' : K ∉ (step s op).sdkEventHandlers := by
          cases op with
          | subscribe w k =>
              have hk : k ≠ K := by
                intro e
                exact hsub ⟨w, by rw [e]⟩
              rw [show (step s (Op.subscribe w k)).sdkEventHandlers =
                (subscribeEvents s w k).1.sdkEventHandlers from rfl]
              rw [subscribeEvents_handlers]
              by_cases hH : k ∈ s.sdkEventHandlers
              · simpa [hH] using h
              · rw [if_neg hH]
                simp only [List.mem_append, List.mem_singleton]
                rintro (hm | hm)
                · exact h hm
                · exact hk hm.symm
          | unsubscribe w k =>
              exact not_mem_handlers_of_eq (unsubscribeEvents_frame s w k).2 h
          | destroy w =>
              by_cases hw : w ∈ s.tracked <;> simpa [step, destroyCleanup, hw] using h
          | initSdk ok => exact not_mem_handlers_of_eq (initSdkHandler_frame s ok).2.2 h
          | shutdownSdk ok =>
              exact not_mem_handlers_of_eq (shutdownSdkHandler_frame s ok).2.2 h
          | setConfig u a b =>
              exact not_mem_handlers_of_eq (setConfigHandler_frame s u a b).2.2 h
          | providerEvent k th f =>
              exact not_mem_handlers_of_eq (handleSdkEvent_frame s k th f).2.2 h
        have hzero : countAddListener K (stepCalls s op) = 0 := by
          rw [countAdd_stepCalls]
          cases op with
          | subscribe w k =>
              have hk : k ≠ K := by
                intro e
                exact hsub ⟨w, by rw [e]⟩
              simp [hk]
          | unsubscribe w k => rfl
          | destroy w => rfl
          | initSdk ok => rfl
          | shutdownSdk ok => rfl
          | setConfig u a b => rfl
          | providerEvent k th f => rfl
        rw [hzero]
        simpa using ih (step s op) hK'

/- ### Fixture states for concrete runs -/

/-- A state whose store reports the SDK initialized (as after a successful
INIT_SDK at the default configuration). -/
def sReady : MainState :=
  { initialMainState with
    store := { initialMainState.store with sdkInitialized := true } }

/-- A state whose configuration has the plugin disabled. -/
def sDisabled : MainState :=
  { initialMainState with
    store :=
      { initialMainState.store with
        config := { initialMainState.store.config with enabled := false } } }

/-- A partial configuration update that only sets a new endpoint. -/
def uEndpoint : ConfigUpdate :=
  { enabled := none, apiUrl := some "https://eu-west-1.recall.ai",
    requestPermissionsOnStartup := none }

/-- A partial configuration update whose apiUrl field is present but holds
the empty string. -/
def uEmptyUrl : ConfigUpdate :=
  { enabled := none, apiUrl := some "", requestPermissionsOnStartup := none }

/- ### The claims -/

/-- C1: over every operation sequence from process start, the refcount the
code keeps for a (kind, consumer) pair equals the specification's net
subscription count, and when a provider event of that kind fires the
consumer receives exactly one delivery if that count is positive (even when
it exceeds one) and zero deliveries once it has reached zero. -/
theorem c1_exactly_once_delivery (ops : List Op) (C : WcId) (K : EventType) :
    subCount (run initialMainState ops) K C = specNetCount K C ops 0 ∧
    deliveredTo C
        (handleSdkEvent (run initialMainState ops) K false (fun _ => true)).2 =
      if 0 < specNetCount K C ops 0 then 1 else 0 := by
  have hInv := stateInv_run initialMainState ops stateInv_initial
  have hcount := subCount_run_spec K C ops initialMainState stateInv_initial
  have hzero : subCount initialMainState K C = 0 := by
    simp [subCount, initialMainState, alGet]
  rw [hzero] at hcount
  refine ⟨hcount, ?_⟩
  rw [handleSdkEvent_snd]
  rw [deliveredTo_broadcast _ hInv K C _]
  rw [hcount]
  by_cases h0 : 0 < specNetCount K C ops 0 <;> simp [h0]

/-- C2: the SHUTDOWN_SDK handler calls clearState only after the provider
shutdown has returned; when the provider shutdown throws, the handler jumps
to its catch block, reports failure, and leaves sdkInitialized true — the
state is not cleared, contradicting the claim that shutdown always leaves
the derived state cleared. -/
theorem c2_shutdown_skips_clear_on_throw :
    (shutdownSdkHandler sReady false).1 = sReady ∧
    (shutdownSdkHandler sReady false).1.store.sdkInitialized = true ∧
    (shutdownSdkHandler sReady false).2.1 =
      { success := false, message := "SDK shutdown failed" } ∧
    (shutdownSdkHandler sReady true).1.store.sdkInitialized = false :=
  ⟨rfl, rfl, rfl, rfl⟩

/-- C3: for every kind, any run from process start issues at most one
provider addEventListener call for it; the listener exists exactly when
that one call has been made; and the listener table only ever grows (a
registered listener is never removed, whatever happens to subscribers). -/
theorem c3_listener_registered_once (K : EventType) :
    (∀ ops, countAddListener K (runCalls initialMainState ops) ≤ 1) ∧
    (∀ ops, K ∈ (run initialMainState ops).sdkEventHandlers ↔
      countAddListener K (runCalls initialMainState ops) = 1) ∧
    (∀ ops more, ((run initialMainState ops).sdkEventHandlers).Sublist
      ((run initialMainState (ops ++ more)).sdkEventHandlers)) := by
  have hnot : K ∉ initialMainState.sdkEventHandlers := by
    simp [initialMainState]
  refine ⟨fun ops => (countAdd_run_of_not_mem K ops _ hnot).1,
    fun ops => (countAdd_run_of_not_mem K ops _ hnot).2, fun ops more => ?_⟩
  rw [run_append]
  exact handlers_sublist_run _ more

/-- C3 at a concrete input: two subscriptions to the same kind cause at
most one provider registration. -/
theorem c3_listener_registered_once_witness :
    countAddListener EventType.error (runCalls initialMainState
      [Op.subscribe 1 EventType.error, Op.subscribe 2 EventType.error]) ≤ 1 :=
  (c3_listener_registered_once EventType.error).1
    [Op.subscribe 1 EventType.error, Op.subscribe 2 EventType.error]

/-- C4 as stated fails on the code in two ways, both exhibited here while
Ready.  First, a partial update whose apiUrl field is present but empty
touches the endpoint yet triggers no provider shutdown or init, because
the SET_CONFIG handler tests JavaScript truthiness of config.apiUrl (the
merge still happens and the call reports success).  Second, with a
non-empty apiUrl, when the provider shutdown call throws, the handler
makes the shutdown call only — provider init is never called — so
"shutdown then init exactly once each" fails too. -/
theorem c4_counterexample_reinit_guard :
    (uEmptyUrl.apiUrl.isSome = true ∧
      sReady.store.sdkInitialized = true ∧
      (setConfigHandler sReady uEmptyUrl true true).2.2 = [] ∧
      (setConfigHandler sReady uEmptyUrl true true).1.store.config.apiUrl = "" ∧
      (setConfigHandler sReady uEmptyUrl true true).2.1.success = true) ∧
    (jsTruthyStr uEndpoint.apiUrl = true ∧
      (setConfigHandler sReady uEndpoint false true).2.2 =
        [ProviderCall.shutdownCall] ∧
      (setConfigHandler sReady uEndpoint false true).2.1.success = false) :=
  ⟨⟨rfl, rfl, rfl, rfl, rfl⟩, ⟨rfl, rfl, rfl⟩⟩

/-- C4 (amended): SET_CONFIG merges the partial update into the store
unconditionally; if the SDK is not initialized it makes no provider call;
if the SDK is initialized and the update carries a non-empty apiUrl or any
requestPermissionsOnStartup value, then — the provider shutdown call not
throwing — it calls provider shutdown then provider init exactly once
each, in that order. -/
theorem c4_reconfigure_calls (s : MainState) (u : ConfigUpdate) (sOk iOk : Bool) :
    (setConfigHandler s u sOk iOk).1.store.config = (s.store.setConfig u).config ∧
    (s.store.sdkInitialized = false → (setConfigHandler s u sOk iOk).2.2 = []) ∧
    (s.store.sdkInitialized = true →
      (jsTruthyStr u.apiUrl || u.requestPermissionsOnStartup.isSome) = true →
      (setConfigHandler s u true iOk).2.2 =
        [ProviderCall.shutdownCall,
          ProviderCall.initCall (buildSdkOptions (s.store.setConfig u).config)]) := by
  have hpreserve : (s.store.setConfig u).sdkInitialized = s.store.sdkInitialized := rfl
  refine ⟨?_, ?_, ?_⟩
  · cases hI : (s.store.setConfig u).sdkInitialized <;>
      cases hT : jsTruthyStr u.apiUrl || u.requestPermissionsOnStartup.isSome <;>
      cases sOk <;> cases iOk <;>
      simp [setConfigHandler, initSdkCore, hI, hT]
  · intro hI
    have hI2 : (s.store.setConfig u).sdkInitialized = false := by
      rw [hpreserve]
      exact hI
    simp [setConfigHandler, hI2]
  · intro hI hT
    have hI2 : (s.store.setConfig u).sdkInitialized = true := by
      rw [hpreserve]
      exact hI
    cases iOk <;> simp [setConfigHandler, initSdkCore, hI2, hT]

/-- C5: a reconfigure-triggered reinitialization whose provider init fails
reports success false but leaves sdkInitialized true — the SET_CONFIG path
calls the provider's shutdown directly and never clears the store, so a
failed init strands the state claiming the provider is ready; the INIT_SDK
path by contrast leaves sdkInitialized false after the same failure. -/
theorem c5_reinit_failure_leaves_stale_ready :
    (setConfigHandler sReady uEndpoint true false).2.2 =
      [ProviderCall.shutdownCall,
        ProviderCall.initCall (buildSdkOptions ((sReady.store.setConfig uEndpoint).config))] ∧
    (setConfigHandler sReady uEndpoint true false).2.1.success = false ∧
    (setConfigHandler sReady uEndpoint true false).1.store.sdkInitialized = true ∧
    (initSdkHandler initialMainState false).1.store.sdkInitialized = false ∧
    (initSdkHandler initialMainState false).2.1.success = false :=
  ⟨rfl, rfl, rfl, rfl, rfl⟩

/-- C6: after a consumer's destroyed-cleanup has run, and across any
further operations containing no new subscribe from it, its refcount for
every kind is zero, it is untracked, no broadcast of any fired event
delivers to it, and an unsubscribe naming it leaves the state unchanged —
all of this whether or not it had any subscriptions when destroyed. -/
theorem c6_disconnect_cleanup (pre ops : List Op) (C : WcId)
    (hops : ∀ K, Op.subscribe C K ∉ ops) :
    (∀ K, subCount (run initialMainState (pre ++ Op.destroy C :: ops)) K C = 0) ∧
    C ∉ (run initialMainState (pre ++ Op.destroy C :: ops)).tracked ∧
    (∀ K f, deliveredTo C
      (broadcastEvent (run initialMainState (pre ++ Op.destroy C :: ops)) K f) = 0) ∧
    (∀ K, (unsubscribeEvents (run initialMainState (pre ++ Op.destroy C :: ops)) C K).1 =
      run initialMainState (pre ++ Op.destroy C :: ops)) := by
  have hInv := stateInv_run initialMainState pre stateInv_initial
  have hg0 : Gone C (step (run initialMainState pre) (Op.destroy C)) :=
    gone_destroy _ C hInv
  have hG : Gone C (run initialMainState (pre ++ Op.destroy C :: ops)) := by
    rw [run_append]
    rw [show run (run initialMainState pre) (Op.destroy C :: ops) =
      run (step (run initialMainState pre) (Op.destroy C)) ops from rfl]
    exact gone_run C ops _ hg0 hops
  exact ⟨fun K => gone_subCount _ C K hG, hG.1,
    fun K f => gone_deliveredTo _ C K f hG,
    fun K => gone_unsubscribe_noop _ C K hG⟩

/-- C6 at a concrete input: subscribe then destroy; all four cleanup
consequences hold in the resulting state. -/
theorem c6_disconnect_cleanup_witness :
    (∀ K, subCount (run initialMainState
      ([Op.subscribe 1 EventType.recordingStarted] ++ Op.destroy 1 :: [])) K 1 = 0) ∧
    (1 : WcId) ∉ (run initialMainState
      ([Op.subscribe 1 EventType.recordingStarted] ++ Op.destroy 1 :: [])).tracked ∧
    (∀ K f, deliveredTo 1 (broadcastEvent (run initialMainState
      ([Op.subscribe 1 EventType.recordingStarted] ++ Op.destroy 1 :: [])) K f) = 0) ∧
    (∀ K, (unsubscribeEvents (run initialMainState
      ([Op.subscribe 1 EventType.recordingStarted] ++ Op.destroy 1 :: [])) 1 K).1 =
      run initialMainState ([Op.subscribe 1 EventType.recordingStarted] ++ Op.destroy 1 :: [])) :=
  c6_disconnect_cleanup [Op.subscribe 1 EventType.recordingStarted] [] 1
    (fun _ => List.not_mem_nil _)

/-- C7: INIT_SDK with the enabled flag false resolves success false with
the disabled message, makes no provider call, and leaves the entire state
untouched. -/
theorem c7_disabled_init_rejected (s : MainState) (ok : Bool)
    (h : s.store.config.enabled = false) :
    initSdkHandler s ok =
      (s, { success := false, message := "Plugin is disabled" }, []) := by
  simp [initSdkHandler, h]

/-- C7 at a concrete input: the disabled default-configuration state. -/
theorem c7_disabled_init_rejected_witness :
    initSdkHandler sDisabled true =
      (sDisabled, { success := false, message := "Plugin is disabled" }, []) :=
  c7_disabled_init_rejected sDisabled true rfl

theorem filterMap_attempts_eq (tr : List WcId) (f g : WcId → Bool)
    (m : List (WcId × Nat)) :
    (m.filterMap (fun p => if p.1 ∈ tr then some (p.1, f p.1) else none)).map Prod.fst =
      (m.filterMap (fun p => if p.1 ∈ tr then some (p.1, g p.1) else none)).map Prod.fst := by
  induction m with
  | nil => rfl
  | cons p rest ih => by_cases ht : p.1 ∈ tr <;> simp [List.filterMap_cons, ht, ih]

/-- C8: handleSdkEvent hands subscribers the broadcast computed on the
post-side-effect state (side effect strictly first), the deliveries do not
depend on whether the side effect threw, the set of attempted sends does
not depend on any individual send's outcome (a failed send aborts nothing),
and the shutdown event's side effect clears the provider-ready flag. -/
theorem c8_side_effect_isolation (s : MainState) (K : EventType) (t1 t2 : Bool)
    (f g : WcId → Bool) :
    (handleSdkEvent s K t1 f).2 = broadcastEvent (handleSdkEvent s K t1 f).1 K f ∧
    (handleSdkEvent s K t1 f).2 = (handleSdkEvent s K t2 f).2 ∧
    (broadcastEvent s K f).map Prod.fst = (broadcastEvent s K g).map Prod.fst ∧
    (handleSdkEvent s EventType.shutdown false f).1.store.sdkInitialized = false := by
  refine ⟨rfl, ?_, ?_, rfl⟩
  · rw [handleSdkEvent_snd, handleSdkEvent_snd]
  · unfold broadcastEvent
    cases hm : alGet s.subscriptions K with
    | none => rfl
    | some m => exact filterMap_attempts_eq s.tracked f g m

/-- C9: SUBSCRIBE_EVENTS always resolves success true, increments the
sender's refcount for the kind, ensures the provider-side listener
(registering it exactly when absent — in particular before any provider
init, since nothing consults the enabled flag or sdkInitialized), and
leaves the store untouched. -/
theorem c9_subscribe_unconditional (s : MainState) (w : WcId) (K : EventType) :
    (subscribeEvents s w K).2.1.success = true ∧
    subCount (subscribeEvents s w K).1 K w = subCount s K w + 1 ∧
    K ∈ (subscribeEvents s w K).1.sdkEventHandlers ∧
    (subscribeEvents s w K).1.store = s.store ∧
    (subscribeEvents s w K).2.2 =
      (if K ∈ s.sdkEventHandlers then [] else [ProviderCall.addEventListener K]) := by
  refine ⟨rfl, ?_, ?_, subscribeEvents_store s w K, subscribeEvents_calls s w K⟩
  · simpa using subCount_subscribe s w K K w
  · rw [subscribeEvents_handlers]
    by_cases hH : K ∈ s.sdkEventHandlers
    · simp [hH]
    · simp [hH]

/-- C10: SET_CONFIG always leaves the merged configuration in the store
(each present field overwrites, each absent field persists), including in
runs where the reconfigure-triggered provider shutdown or init threw and
the response is success false; one such failing run is exhibited. -/
theorem c10_config_merge_never_rolled_back (s : MainState) (u : ConfigUpdate)
    (sOk iOk : Bool) :
    (setConfigHandler s u sOk iOk).1.store.config =
      { enabled := u.enabled.getD s.store.config.enabled
        apiUrl := u.apiUrl.getD s.store.config.apiUrl
        requestPermissionsOnStartup :=
          u.requestPermissionsOnStartup.getD s.store.config.requestPermissionsOnStartup } ∧
    (setConfigHandler sReady uEndpoint false true).2.1.success = false ∧
    (setConfigHandler sReady uEndpoint false true).1.store.config.apiUrl =
      "https://eu-west-1.recall.ai" := by
  refine ⟨?_, rfl, rfl⟩
  cases hI : s.store.sdkInitialized <;>
    cases hT : jsTruthyStr u.apiUrl || u.requestPermissionsOnStartup.isSome <;>
    cases sOk <;> cases iOk <;>
    simp [setConfigHandler, initSdkCore, StoreState.setConfig, hI, hT]
